import Mathlib

/-!
Shallow embedding of the ARM (AArch32) architecture-specific core of the
Jailhouse hypervisor: the trap dispatcher and CP15 emulation
(hypervisor/arch/arm/traps.c), the PSCI emulator
(hypervisor/arch/arm/psci.c), the GICv2 list-register injection
(hypervisor/arch/arm/gic-v2.c) and the per-CPU / cell lifecycle
(hypervisor/arch/arm/control.c).

Machine integers are modelled as `Nat` with explicit `% 2 ^ 32` where the
32-bit code can wrap.  Hardware side effects (system-register writes, SGIs,
lock operations) are made explicit as result values or event traces.
-/

/-- Modelled from the spec: syndrome decoding, exception class is
syndrome bits 31:26 (`HSR_EC`, asm/traps.h is not part of the sources). -/
def HSR_EC (hsr : Nat) : Nat := (hsr >>> 26) &&& 0x3f

/-- Modelled from the spec: the IL (instruction length) syndrome bit, bit 25;
set means a 4-byte instruction, clear a 2-byte one. -/
def HSR_IL (hsr : Nat) : Nat := (hsr >>> 25) &&& 1

/-- Modelled from the spec: the instruction-specific part of the syndrome,
bits 24:0. -/
def HSR_ICC (hsr : Nat) : Nat := hsr &&& 0x1ffffff

/-- Modelled from the spec: the condition-valid bit of the syndrome ISS,
bit 24. -/
def HSR_ICC_CV_BIT : Nat := 1 <<< 24

/-- Modelled from the spec: the condition field of the syndrome ISS,
bits 23:20. -/
def HSR_ICC_COND (icc : Nat) : Nat := (icc >>> 20) &&& 0xf

/-- Modelled from the spec: the split Thumb IT-state layout,
IT[7:0] maps to CPSR[26:25], CPSR[15:10] (asm/processor.h is not part of
the sources).  `PSR_IT_MASK it` places the 8-bit IT value into a PSR word. -/
def PSR_IT_MASK (it : Nat) : Nat := ((it &&& 0x3) <<< 25) ||| ((it &&& 0xfc) <<< 8)

/-- Modelled from the spec: extract the 8-bit IT field from a PSR word,
inverse of `PSR_IT_MASK` on the IT bits. -/
def PSR_IT (psr : Nat) : Nat := ((psr >>> 25) &&& 0x3) ||| ((psr >>> 8) &&& 0xfc)

/-- 32-bit ones-complement, as the C tilde on a 32-bit unsigned word. -/
def NOT32 (m : Nat) : Nat := 0xffffffff ^^^ m

/-- Modelled from the spec: PSR mode field mask (low five bits). -/
def PSR_MODE_MASK : Nat := 0x1f

/-- Modelled from the spec: ARM PSR mode encodings. -/
def PSR_USR_MODE : Nat := 0x10

def PSR_FIQ_MODE : Nat := 0x11

def PSR_IRQ_MODE : Nat := 0x12

def PSR_SVC_MODE : Nat := 0x13

def PSR_ABT_MODE : Nat := 0x17

def PSR_UND_MODE : Nat := 0x1b

def PSR_SYS_MODE : Nat := 0x1f

/-- Trap context captured per exit (traps.c): guest PC, guest PSR and the
32-bit syndrome word.  The saved user-register pointer is modelled
separately where needed. -/
structure TrapContext where
  pc : Nat
  cpsr : Nat
  hsr : Nat
deriving DecidableEq, Repr

/-- Condition code lookup table from traps.c: index is the condition,
bit position in the 16-bit entry is the NZCV flags nibble. -/
def cc_map : List Nat :=
  [0xF0F0, 0x0F0F, 0xCCCC, 0x3333,
   0xFF00, 0x00FF, 0xAAAA, 0x5555,
   0x0C0C, 0xF3F3, 0xAA55, 0x55AA,
   0x0A05, 0xF5FA, 0xFFFF, 0]

/-- The ARM architecture truth value of condition `cond` under the NZCV
flags nibble `flags` (N is bit 3, Z bit 2, C bit 1, V bit 0).  This follows
the spec wording, to be compared against the `cc_map` table of the code. -/
def armCondTruth (cond flags : Nat) : Bool :=
  let n := flags.testBit 3
  let z := flags.testBit 2
  let c := flags.testBit 1
  let v := flags.testBit 0
  match cond with
  | 0 => z
  | 1 => !z
  | 2 => c
  | 3 => !c
  | 4 => n
  | 5 => !n
  | 6 => v
  | 7 => !v
  | 8 => c && !z
  | 9 => !c || z
  | 10 => n == v
  | 11 => n != v
  | 12 => !z && (n == v)
  | 13 => z || (n != v)
  | 14 => true
  | _ => false

/-- The condition-code bit test of traps.c: `(cc_map[cond] >> flags) & 1`. -/
def ccBit (cond flags : Nat) : Bool := ((cc_map.getD cond 0) >>> flags) &&& 1 == 1

/-- Embedding of `arch_failed_condition` (traps.c): check the condition
field either from the syndrome or, in Thumb mode, from the PSR IT state. -/
def arch_failed_condition (ctx : TrapContext) : Bool :=
  let cls := HSR_EC ctx.hsr
  let icc := HSR_ICC ctx.hsr
  let cpsr := ctx.cpsr
  let flags := cpsr >>> 28
  if cls &&& 0x30 ≠ 0 ∨ cls = 0 then
    false
  else
    let cond? : Option Nat :=
      if icc &&& HSR_ICC_CV_BIT ≠ 0 then
        some (HSR_ICC_COND icc)
      else
        let it := PSR_IT cpsr
        if it = 0 then none else some (it >>> 4)
    match cond? with
    | none => false
    | some cond => ! ccBit cond flags

/-- Embedding of `arch_advance_itstate` (traps.c): manually advance the
Thumb IT execution state in the guest PSR. -/
def arch_advance_itstate (ctx : TrapContext) : TrapContext :=
  let cpsr := ctx.cpsr
  if cpsr &&& PSR_IT_MASK 0xff = 0 then
    ctx
  else
    let itbits := PSR_IT cpsr
    let cond := itbits >>> 5
    let itbits2 := if itbits &&& 0x7 = 0 then 0 else (itbits <<< 1) &&& 0x1f
    let cond2 := if itbits &&& 0x7 = 0 then 0 else cond
    let itbits3 := itbits2 ||| (cond2 <<< 5)
    { ctx with cpsr := (cpsr &&& NOT32 (PSR_IT_MASK 0xff)) ||| PSR_IT_MASK itbits3 }

/-- Embedding of `arch_skip_instruction` (traps.c): advance the PC past the
trapped instruction (4 bytes when the IL syndrome bit is set, else 2) and
advance the IT state. -/
def arch_skip_instruction (ctx : TrapContext) : TrapContext :=
  arch_advance_itstate
    { ctx with pc := (ctx.pc + (if HSR_IL ctx.hsr ≠ 0 then 4 else 2)) % 2 ^ 32 }

/-- The IT-advance rule on the extracted 8-bit IT value: no-op at zero,
cleared entirely when the block is exhausted (low three bits zero), else
the low five bits shift left by one masked to five bits, with the leading
condition (bits 7:5) kept. -/
def itAdvance (it : Nat) : Nat :=
  if it = 0 then 0
  else if it &&& 0x7 = 0 then 0
  else ((it <<< 1) &&& 0x1f) ||| ((it >>> 5) <<< 5)

theorem testBit_c3 (i : Nat) : Nat.testBit 3 i = decide (i < 2) := by
  rw [show (3 : Nat) = 2 ^ 2 - 1 from rfl, Nat.testBit_two_pow_sub_one]

theorem testBit_cfc (i : Nat) :
    Nat.testBit 0xfc i = (decide (2 ≤ i) && decide (i - 2 < 6)) := by
  rw [show (0xfc : Nat) = (2 ^ 6 - 1) <<< 2 from rfl, Nat.testBit_shiftLeft,
    Nat.testBit_two_pow_sub_one]

theorem testBit_call32 (i : Nat) : Nat.testBit 0xffffffff i = decide (i < 32) := by
  rw [show (0xffffffff : Nat) = 2 ^ 32 - 1 from rfl, Nat.testBit_two_pow_sub_one]

theorem testBit_cff (i : Nat) : Nat.testBit 0xff i = decide (i < 8) := by
  rw [show (0xff : Nat) = 2 ^ 8 - 1 from rfl, Nat.testBit_two_pow_sub_one]

theorem testBit_c1f (i : Nat) : Nat.testBit 0x1f i = decide (i < 5) := by
  rw [show (0x1f : Nat) = 2 ^ 5 - 1 from rfl, Nat.testBit_two_pow_sub_one]

theorem testBit_c7 (i : Nat) : Nat.testBit 0x7 i = decide (i < 3) := by
  rw [show (0x7 : Nat) = 2 ^ 3 - 1 from rfl, Nat.testBit_two_pow_sub_one]

theorem PSR_IT_lt (psr : Nat) : PSR_IT psr < 256 := by
  have h1 : (psr >>> 25) &&& 0x3 < 256 :=
    lt_of_le_of_lt (Nat.and_le_right) (by decide)
  have h2 : (psr >>> 8) &&& 0xfc < 256 :=
    lt_of_le_of_lt (Nat.and_le_right) (by decide)
  exact Nat.or_lt_two_pow (n := 8) h1 h2

theorem PSR_IT_recover (x v : Nat) (hv : v < 256) :
    PSR_IT ((x &&& NOT32 (PSR_IT_MASK 0xff)) ||| PSR_IT_MASK v) = v := by
  apply Nat.eq_of_testBit_eq
  intro i
  rcases lt_or_ge i 8 with h8 | h8
  · unfold PSR_IT PSR_IT_MASK NOT32
    interval_cases i <;>
      simp [Nat.testBit_lor, Nat.testBit_land, Nat.testBit_xor,
        Nat.testBit_shiftLeft, Nat.testBit_shiftRight,
        testBit_c3, testBit_cfc, testBit_call32, testBit_cff, testBit_c1f, testBit_c7]
  · rw [Nat.testBit_lt_two_pow (lt_of_lt_of_le (PSR_IT_lt _) (by
      calc (256 : Nat) = 2 ^ 8 := by norm_num
      _ ≤ 2 ^ i := Nat.pow_le_pow_right (by norm_num) h8)),
      Nat.testBit_lt_two_pow (lt_of_lt_of_le hv (by
      calc (256 : Nat) = 2 ^ 8 := by norm_num
      _ ≤ 2 ^ i := Nat.pow_le_pow_right (by norm_num) h8))]

theorem nonIT_preserved (x v : Nat) :
    ((x &&& NOT32 (PSR_IT_MASK 0xff)) ||| PSR_IT_MASK v) &&& NOT32 (PSR_IT_MASK 0xff) =
      x &&& NOT32 (PSR_IT_MASK 0xff) := by
  apply Nat.eq_of_testBit_eq
  intro i
  rcases lt_or_ge i 32 with h32 | h32
  · unfold PSR_IT_MASK NOT32
    interval_cases i <;>
      simp [Nat.testBit_lor, Nat.testBit_land, Nat.testBit_xor,
        Nat.testBit_shiftLeft, Nat.testBit_shiftRight,
        testBit_c3, testBit_cfc, testBit_call32, testBit_cff, testBit_c1f, testBit_c7]
  · have hm : Nat.testBit (NOT32 (PSR_IT_MASK 0xff)) i = false :=
      Nat.testBit_lt_two_pow (lt_of_lt_of_le (by decide)
        (Nat.pow_le_pow_right (by norm_num) h32))
    simp [Nat.testBit_land, hm]

theorem and_ITM_zero_iff (cpsr : Nat) :
    cpsr &&& PSR_IT_MASK 0xff = 0 ↔ PSR_IT cpsr = 0 := by
  constructor
  · intro h
    have hb : ∀ j, Nat.testBit (PSR_IT_MASK 0xff) j = true → cpsr.testBit j = false := by
      intro j hj
      have h0 : (cpsr &&& PSR_IT_MASK 0xff).testBit j = false := by
        rw [h]; exact Nat.zero_testBit j
      rw [Nat.testBit_and, hj, Bool.and_true] at h0
      exact h0
    have g25 := hb 25 (by decide)
    have g26 := hb 26 (by decide)
    have g10 := hb 10 (by decide)
    have g11 := hb 11 (by decide)
    have g12 := hb 12 (by decide)
    have g13 := hb 13 (by decide)
    have g14 := hb 14 (by decide)
    have g15 := hb 15 (by decide)
    apply Nat.eq_of_testBit_eq
    intro i
    rw [Nat.zero_testBit]
    rcases lt_or_ge i 8 with h8 | h8
    · unfold PSR_IT
      interval_cases i <;>
        simp [Nat.testBit_lor, Nat.testBit_land, Nat.testBit_shiftRight,
          testBit_c3, testBit_cfc, g25, g26, g10, g11, g12, g13, g14, g15]
    · exact Nat.testBit_lt_two_pow (lt_of_lt_of_le (PSR_IT_lt _)
        (le_trans (by norm_num) (Nat.pow_le_pow_right (by norm_num) h8)))
  · intro h
    have gk : ∀ k, (PSR_IT cpsr).testBit k = false := by
      rw [h]; exact fun k => Nat.zero_testBit k
    have g0 := gk 0
    have g1 := gk 1
    have g2 := gk 2
    have g3 := gk 3
    have g4 := gk 4
    have g5 := gk 5
    have g6 := gk 6
    have g7 := gk 7
    simp only [PSR_IT, Nat.testBit_lor, Nat.testBit_land, Nat.testBit_shiftRight,
      testBit_c3, testBit_cfc] at g0 g1 g2 g3 g4 g5 g6 g7
    norm_num at g0 g1 g2 g3 g4 g5 g6 g7
    apply Nat.eq_of_testBit_eq
    intro i
    rw [Nat.zero_testBit, Nat.testBit_and]
    rcases lt_or_ge i 32 with h32 | h32
    · unfold PSR_IT_MASK
      interval_cases i <;>
        simp [Nat.testBit_lor, Nat.testBit_land, Nat.testBit_shiftLeft,
          testBit_c3, testBit_cfc, testBit_cff, g0, g1, g2, g3, g4, g5, g6, g7]
    · have hm : Nat.testBit (PSR_IT_MASK 0xff) i = false :=
        Nat.testBit_lt_two_pow (lt_of_lt_of_le (by decide)
          (Nat.pow_le_pow_right (by norm_num) h32))
      simp [hm]

theorem itAdvance_lt (it : Nat) (h : it < 256) : itAdvance it < 256 := by
  unfold itAdvance
  rcases eq_or_ne it 0 with h0 | h0
  · simp [h0]
  · rw [if_neg h0]
    by_cases h7 : it &&& 0x7 = 0
    · simp [h7]
    · rw [if_neg h7]
      apply Nat.or_lt_two_pow (n := 8)
      · exact lt_of_le_of_lt Nat.and_le_right (by decide)
      · have hd : it >>> 5 < 8 := by
          rw [Nat.shiftRight_eq_div_pow]
          omega
        have he : (it >>> 5) <<< 5 = (it >>> 5) * 32 := by
          rw [Nat.shiftLeft_eq]
        rw [he]
        omega

theorem advance_itstate_pc (ctx : TrapContext) :
    (arch_advance_itstate ctx).pc = ctx.pc := by
  unfold arch_advance_itstate
  by_cases h : ctx.cpsr &&& PSR_IT_MASK 0xff = 0 <;> simp [h]

theorem advance_itstate_hsr (ctx : TrapContext) :
    (arch_advance_itstate ctx).hsr = ctx.hsr := by
  unfold arch_advance_itstate
  by_cases h : ctx.cpsr &&& PSR_IT_MASK 0xff = 0 <;> simp [h]

theorem advance_itstate_of_zero (ctx : TrapContext) (h : PSR_IT ctx.cpsr = 0) :
    arch_advance_itstate ctx = ctx := by
  unfold arch_advance_itstate
  rw [if_pos ((and_ITM_zero_iff _).mpr h)]

theorem advance_itstate_IT (ctx : TrapContext) :
    PSR_IT (arch_advance_itstate ctx).cpsr = itAdvance (PSR_IT ctx.cpsr) := by
  by_cases h : ctx.cpsr &&& PSR_IT_MASK 0xff = 0
  · have h0 : PSR_IT ctx.cpsr = 0 := (and_ITM_zero_iff _).mp h
    rw [advance_itstate_of_zero ctx h0, h0]
    simp [itAdvance]
  · have hne : PSR_IT ctx.cpsr ≠ 0 := fun hz => h ((and_ITM_zero_iff _).mpr hz)
    unfold arch_advance_itstate
    rw [if_neg h]
    simp only
    rw [PSR_IT_recover]
    · unfold itAdvance
      rw [if_neg hne]
      by_cases h7 : PSR_IT ctx.cpsr &&& 0x7 = 0 <;> simp [h7]
    · by_cases h7 : PSR_IT ctx.cpsr &&& 0x7 = 0
      · simp [h7]
      · simp only [if_neg h7]
        apply Nat.or_lt_two_pow (n := 8)
        · exact lt_of_le_of_lt Nat.and_le_right (by decide)
        · have hd : PSR_IT ctx.cpsr >>> 5 < 8 := by
            have := PSR_IT_lt ctx.cpsr
            rw [Nat.shiftRight_eq_div_pow]
            omega
          have he : (PSR_IT ctx.cpsr >>> 5) <<< 5 = (PSR_IT ctx.cpsr >>> 5) * 32 := by
            rw [Nat.shiftLeft_eq]
          rw [he]
          omega

theorem advance_itstate_nonIT (ctx : TrapContext) :
    (arch_advance_itstate ctx).cpsr &&& NOT32 (PSR_IT_MASK 0xff) =
      ctx.cpsr &&& NOT32 (PSR_IT_MASK 0xff) := by
  unfold arch_advance_itstate
  by_cases h : ctx.cpsr &&& PSR_IT_MASK 0xff = 0
  · simp [h]
  · simp only [if_neg h]
    exact nonIT_preserved _ _


theorem skip_cpsr_eq (ctx : TrapContext) :
    (arch_skip_instruction ctx).cpsr =
      (arch_advance_itstate { ctx with pc := (ctx.pc + (if HSR_IL ctx.hsr ≠ 0 then 4 else 2)) % 2 ^ 32 }).cpsr := rfl

theorem skip_hsr (ctx : TrapContext) : (arch_skip_instruction ctx).hsr = ctx.hsr := by
  unfold arch_skip_instruction
  rw [advance_itstate_hsr]

theorem skip_pc (ctx : TrapContext) :
    (arch_skip_instruction ctx).pc = (ctx.pc + (if HSR_IL ctx.hsr ≠ 0 then 4 else 2)) % 2 ^ 32 := by
  unfold arch_skip_instruction
  rw [advance_itstate_pc]

theorem skip_IT (ctx : TrapContext) :
    PSR_IT (arch_skip_instruction ctx).cpsr = itAdvance (PSR_IT ctx.cpsr) := by
  unfold arch_skip_instruction
  rw [advance_itstate_IT]

/-- C6: `arch_skip_instruction` adds 4 to the PC (mod 2^32) when the IL
syndrome bit is set and 2 otherwise; the PSR is unchanged when no IT block
is active; otherwise the IT field (in its split 26:25, 15:10 layout) is
advanced by the IT-advance rule and every non-IT PSR bit is preserved. -/
theorem C6_skip_instruction_spec (ctx : TrapContext) :
    (arch_skip_instruction ctx).pc =
      (ctx.pc + (if HSR_IL ctx.hsr ≠ 0 then 4 else 2)) % 2 ^ 32 ∧
    (PSR_IT ctx.cpsr = 0 → (arch_skip_instruction ctx).cpsr = ctx.cpsr) ∧
    PSR_IT (arch_skip_instruction ctx).cpsr = itAdvance (PSR_IT ctx.cpsr) ∧
    (arch_skip_instruction ctx).cpsr &&& NOT32 (PSR_IT_MASK 0xff) =
      ctx.cpsr &&& NOT32 (PSR_IT_MASK 0xff) := by
  refine ⟨skip_pc ctx, ?_, skip_IT ctx, ?_⟩
  · intro h0
    unfold arch_skip_instruction
    rw [advance_itstate_of_zero _ (by simpa using h0)]
  · unfold arch_skip_instruction
    rw [advance_itstate_nonIT]

/-- C6 witness: a concrete Thumb context, IT block active (guest PSR IT
field 0b10101000, flags clear), 2-byte instruction. -/
theorem C6_skip_instruction_spec_witness :
    PSR_IT (3758096384 : Nat) = 0 ∧
    (arch_skip_instruction ⟨4096, 3758096384, 0⟩).cpsr = 3758096384 ∧
    (arch_skip_instruction ⟨4096, 3758096384, 0⟩).pc = 4098 := by
  refine ⟨by decide, ?_, ?_⟩
  · exact (C6_skip_instruction_spec ⟨4096, 3758096384, 0⟩).2.1 (by decide)
  · rw [(C6_skip_instruction_spec ⟨4096, 3758096384, 0⟩).1]
    decide

/-- C7: skipping twice from the same context (the syndrome word, and so the
IL bit, is untouched by the skip) advances the PC by twice the instruction
length and the IT state by two steps of the IT-advance rule. -/
theorem C7_skip_instruction_twice (ctx : TrapContext) :
    (arch_skip_instruction (arch_skip_instruction ctx)).pc =
      (ctx.pc + 2 * (if HSR_IL ctx.hsr ≠ 0 then 4 else 2)) % 2 ^ 32 ∧
    PSR_IT (arch_skip_instruction (arch_skip_instruction ctx)).cpsr =
      itAdvance (itAdvance (PSR_IT ctx.cpsr)) := by
  constructor
  · rw [skip_pc, skip_hsr, skip_pc]
    by_cases h : HSR_IL ctx.hsr ≠ 0
    · simp only [if_pos h]
      omega
    · simp only [if_neg h]
      omega
  · rw [skip_IT, skip_IT]

theorem ccBit_eq (cond flags : Nat) (h1 : cond < 16) (h2 : flags < 16) :
    ccBit cond flags = armCondTruth cond flags := by
  have h : ∀ c : Fin 16, ∀ f : Fin 16, ccBit c.val f.val = armCondTruth c.val f.val := by decide
  exact h ⟨cond, h1⟩ ⟨flags, h2⟩

theorem hsr_icc_cond_lt (icc : Nat) : HSR_ICC_COND icc < 16 :=
  lt_of_le_of_lt Nat.and_le_right (by decide)

theorem flags_lt (cpsr : Nat) (h : cpsr < 2 ^ 32) : cpsr >>> 28 < 16 := by
  rw [Nat.shiftRight_eq_div_pow]
  omega

/-- C5: bit `flags` of `cc_map[cond]` equals the ARM truth value of
condition `cond` under the NZCV nibble `flags` for all 256 combinations,
and `arch_failed_condition` returns true exactly when the applicable
condition (from the syndrome when condition-valid, else from the leading
IT bits) is false under the guest flags; unconditional cases return false. -/
theorem C5_condition_check :
    (∀ cond : Fin 16, ∀ flags : Fin 16,
      ccBit cond.val flags.val = armCondTruth cond.val flags.val) ∧
    (∀ ctx : TrapContext, ctx.cpsr < 2 ^ 32 →
      HSR_EC ctx.hsr &&& 0x30 = 0 → HSR_EC ctx.hsr ≠ 0 →
      (HSR_ICC ctx.hsr &&& HSR_ICC_CV_BIT ≠ 0 →
        arch_failed_condition ctx =
          ! armCondTruth (HSR_ICC_COND (HSR_ICC ctx.hsr)) (ctx.cpsr >>> 28)) ∧
      (HSR_ICC ctx.hsr &&& HSR_ICC_CV_BIT = 0 → PSR_IT ctx.cpsr ≠ 0 →
        arch_failed_condition ctx =
          ! armCondTruth (PSR_IT ctx.cpsr >>> 4) (ctx.cpsr >>> 28)) ∧
      (HSR_ICC ctx.hsr &&& HSR_ICC_CV_BIT = 0 → PSR_IT ctx.cpsr = 0 →
        arch_failed_condition ctx = false)) ∧
    (∀ ctx : TrapContext, (HSR_EC ctx.hsr &&& 0x30 ≠ 0 ∨ HSR_EC ctx.hsr = 0) →
      arch_failed_condition ctx = false) := by
  refine ⟨fun c f => ccBit_eq c.val f.val c.isLt f.isLt, ?_, ?_⟩
  · intro ctx h32 h30 hne
    have hcond : ¬ (HSR_EC ctx.hsr &&& 0x30 ≠ 0 ∨ HSR_EC ctx.hsr = 0) := by
      push_neg
      exact ⟨h30, hne⟩
    refine ⟨?_, ?_, ?_⟩
    · intro hcv
      simp only [arch_failed_condition, if_neg hcond, if_pos hcv]
      rw [ccBit_eq _ _ (hsr_icc_cond_lt _) (flags_lt _ h32)]
    · intro hcv hit
      simp only [arch_failed_condition, if_neg hcond, if_neg (not_not_intro hcv),
        if_neg hit]
      have hlt : PSR_IT ctx.cpsr >>> 4 < 16 := by
        have := PSR_IT_lt ctx.cpsr
        rw [Nat.shiftRight_eq_div_pow]
        omega
      rw [ccBit_eq _ _ hlt (flags_lt _ h32)]
    · intro hcv hit
      simp only [arch_failed_condition, if_neg hcond, if_neg (not_not_intro hcv),
        if_pos hit]
  · intro ctx h
    simp only [arch_failed_condition, if_pos h]

/-- C5 witness: a CP15_32 trap (class 3) with a valid condition field EQ
while Z is set: the condition holds, so the check does not fail. -/
theorem C5_condition_check_witness :
    arch_failed_condition ⟨0, 1073741824, 218103808⟩ = false := by
  have h := (C5_condition_check.2.1 ⟨0, 1073741824, 218103808⟩ (by decide)
    (by decide) (by decide)).1 (by decide)
  rw [h]
  decide

/-- Trap handler result codes (asm/traps.h, modelled from the spec). -/
inductive TrapResult where
  | handled
  | unhandled
  | forbidden
deriving DecidableEq, Repr

/-- A CP15 register coordinate as decoded from the MCR/MRC syndrome:
CRn, opc1, CRm, opc2. -/
structure CP15Op where
  crn : Nat
  op1 : Nat
  crm : Nat
  op2 : Nat
deriving DecidableEq, Repr

def CP15_ACTLR : CP15Op := ⟨1, 0, 0, 1⟩

def CP15_SCTLR : CP15Op := ⟨1, 0, 0, 0⟩

def CP15_TTBR0 : CP15Op := ⟨2, 0, 0, 0⟩

def CP15_TTBR1 : CP15Op := ⟨2, 0, 0, 1⟩

def CP15_TTBCR : CP15Op := ⟨2, 0, 0, 2⟩

def CP15_DACR : CP15Op := ⟨3, 0, 0, 0⟩

def CP15_DFSR : CP15Op := ⟨5, 0, 0, 0⟩

def CP15_IFSR : CP15Op := ⟨5, 0, 0, 1⟩

def CP15_DFAR : CP15Op := ⟨6, 0, 0, 0⟩

def CP15_IFAR : CP15Op := ⟨6, 0, 0, 2⟩

def CP15_ADFSR : CP15Op := ⟨5, 0, 1, 0⟩

def CP15_AIFSR : CP15Op := ⟨5, 0, 1, 1⟩

def CP15_MAIR0 : CP15Op := ⟨10, 0, 2, 0⟩

def CP15_MAIR1 : CP15Op := ⟨10, 0, 2, 1⟩

def CP15_CONTEXTIDR : CP15Op := ⟨13, 0, 0, 1⟩

/-- The CP15_32 write allow-list of `arch_handle_cp15_32` (traps.c), in
source order. -/
def cp15_32_write_allow_list : List CP15Op :=
  [CP15_SCTLR, CP15_TTBR0, CP15_TTBR1, CP15_TTBCR, CP15_DACR, CP15_DFSR,
   CP15_IFSR, CP15_DFAR, CP15_IFAR, CP15_ADFSR, CP15_AIFSR, CP15_MAIR0,
   CP15_MAIR1, CP15_CONTEXTIDR]

/-- Embedding of `arch_handle_cp15_32` (traps.c), as a function of the
read bit and the decoded register coordinate.  The second component lists
the system registers actually written.  Note the source structure: ACTLR is
matched first (a read returns the physical value, a write falls through to
the final skip-and-handle with no system-register write); all remaining
reads are unhandled; writes walk the allow-list chain. -/
def arch_handle_cp15_32 (read : Bool) (op : CP15Op) : TrapResult × List CP15Op :=
  if op = CP15_ACTLR then (.handled, [])
  else if read then (.unhandled, [])
  else if op = CP15_SCTLR then (.handled, [CP15_SCTLR])
  else if op = CP15_TTBR0 then (.handled, [CP15_TTBR0])
  else if op = CP15_TTBR1 then (.handled, [CP15_TTBR1])
  else if op = CP15_TTBCR then (.handled, [CP15_TTBCR])
  else if op = CP15_DACR then (.handled, [CP15_DACR])
  else if op = CP15_DFSR then (.handled, [CP15_DFSR])
  else if op = CP15_IFSR then (.handled, [CP15_IFSR])
  else if op = CP15_DFAR then (.handled, [CP15_DFAR])
  else if op = CP15_IFAR then (.handled, [CP15_IFAR])
  else if op = CP15_ADFSR then (.handled, [CP15_ADFSR])
  else if op = CP15_AIFSR then (.handled, [CP15_AIFSR])
  else if op = CP15_MAIR0 then (.handled, [CP15_MAIR0])
  else if op = CP15_MAIR1 then (.handled, [CP15_MAIR1])
  else if op = CP15_CONTEXTIDR then (.handled, [CP15_CONTEXTIDR])
  else (.unhandled, [])

theorem cp15_write_unhandled (op : CP15Op) (hmem : op ∉ cp15_32_write_allow_list)
    (hact : op ≠ CP15_ACTLR) : arch_handle_cp15_32 false op = (.unhandled, []) := by
  simp only [cp15_32_write_allow_list, List.mem_cons, List.not_mem_nil, or_false,
    not_or] at hmem
  obtain ⟨h1, h2, h3, h4, h5, h6, h7, h8, h9, h10, h11, h12, h13, h14⟩ := hmem
  simp [arch_handle_cp15_32, hact, h1, h2, h3, h4, h5, h6, h7, h8, h9, h10,
    h11, h12, h13, h14]

/-- C1 counterexample: a CP15 32-bit write to ACTLR (CRn=1, op1=0, CRm=0,
op2=1) is answered with TRAP_HANDLED — the value is silently discarded and
no system register is written — not with TRAP_UNHANDLED as claimed. -/
theorem C1_actlr_write_counterexample :
    arch_handle_cp15_32 false CP15_ACTLR = (.handled, []) ∧
    (arch_handle_cp15_32 false CP15_ACTLR).1 ≠ TrapResult.unhandled := by
  decide

/-- C1 amended: every CP15 32-bit write whose coordinate is neither on the
allow-list nor ACTLR returns UNHANDLED and performs no system-register
write; every write accepted as TRAP_HANDLED is to an allow-list register or
to ACTLR, and an ACTLR write is accepted but silently discarded. -/
theorem C1_cp15_32_write_allow_list_closed (op : CP15Op) :
    (op ∉ cp15_32_write_allow_list → op ≠ CP15_ACTLR →
      arch_handle_cp15_32 false op = (.unhandled, [])) ∧
    ((arch_handle_cp15_32 false op).1 = .handled →
      op ∈ cp15_32_write_allow_list ∨ op = CP15_ACTLR) ∧
    ((arch_handle_cp15_32 false op).1 = .handled → op ≠ CP15_ACTLR →
      (arch_handle_cp15_32 false op).2 = [op]) ∧
    arch_handle_cp15_32 false CP15_ACTLR = (.handled, []) := by
  refine ⟨cp15_write_unhandled op, ?_, ?_, by decide⟩
  · intro hh
    by_contra hc
    push_neg at hc
    rw [cp15_write_unhandled op hc.1 hc.2] at hh
    exact absurd hh (by decide)
  · intro hh hact
    have hmem : op ∈ cp15_32_write_allow_list := by
      by_contra hc
      rw [cp15_write_unhandled op hc hact] at hh
      exact absurd hh (by decide)
    fin_cases hmem <;> decide

/-- C1 witness: a write to MIDR coordinates (0,0,0,0), not on the list, is
rejected unhandled with no write performed. -/
theorem C1_cp15_32_write_allow_list_closed_witness :
    arch_handle_cp15_32 false ⟨0, 0, 0, 0⟩ = (.unhandled, []) :=
  (C1_cp15_32_write_allow_list_closed ⟨0, 0, 0, 0⟩).1 (by decide) (by decide)

/-- The register banks of `access_banked_reg` (traps.c). -/
inductive RegBank where
  | usr
  | svc
  | und
  | abt
  | irq
  | fiq
deriving DecidableEq, Repr

/-- Which storage a guest register access touches: the on-stack user
register save area at a given index, a banked register, the trap context
PC, or nothing (the logged no-op default case). -/
inductive RegAccess where
  | stackUsr (i : Nat)
  | banked (b : RegBank) (r : Nat)
  | pcReg
  | noAccess
deriving DecidableEq, Repr

/-- Embedding of `access_cell_reg` (traps.c): the storage accessed for
guest register `reg` given the guest PSR.  Reads and writes use the same
location, so the access target captures both. -/
def access_cell_reg (cpsr reg : Nat) : RegAccess :=
  let mode := cpsr &&& PSR_MODE_MASK
  if reg ≤ 7 then .stackUsr reg
  else if reg ≤ 12 then
    if mode = PSR_FIQ_MODE then .banked .fiq reg else .stackUsr reg
  else if reg ≤ 14 then
    if mode = PSR_USR_MODE ∨ mode = PSR_SYS_MODE then
      if reg = 13 then .banked .usr reg else .stackUsr 13
    else if mode = PSR_SVC_MODE then .banked .svc reg
    else if mode = PSR_UND_MODE then .banked .und reg
    else if mode = PSR_ABT_MODE then .banked .abt reg
    else if mode = PSR_IRQ_MODE then .banked .irq reg
    else if mode = PSR_FIQ_MODE then .banked .fiq reg
    else .noAccess
  else if reg = 15 then .pcReg
  else .noAccess

/-- C2 counterexample: in USR mode a trapped access to r14 (LR) touches the
on-stack user save area at offset 13, not offset 14 as claimed (SP is
banked, so the save area holds LR at index 13). -/
theorem C2_lr_offset_counterexample :
    access_cell_reg PSR_USR_MODE 14 = .stackUsr 13 ∧
    access_cell_reg PSR_USR_MODE 14 ≠ .stackUsr 14 := by
  decide

/-- C2 amended: in USR or SYS mode, r14 (LR) is accessed at on-stack user
offset 13 and r13 (SP) uses the banked usr SP. -/
theorem C2_usr_sys_sp_lr (cpsr : Nat)
    (h : cpsr &&& PSR_MODE_MASK = PSR_USR_MODE ∨ cpsr &&& PSR_MODE_MASK = PSR_SYS_MODE) :
    access_cell_reg cpsr 14 = .stackUsr 13 ∧
    access_cell_reg cpsr 13 = .banked .usr 13 := by
  constructor <;> simp [access_cell_reg, h]

/-- C2 witness: a concrete USR-mode PSR. -/
theorem C2_usr_sys_sp_lr_witness :
    access_cell_reg 16 14 = .stackUsr 13 ∧ access_cell_reg 16 13 = .banked .usr 13 :=
  C2_usr_sys_sp_lr 16 (by decide)

/-- The per-CPU record fields used by the PSCI emulator and the control
state machine (per_cpu in the headers, as described by the spec data
model). -/
structure PerCpu where
  wait_for_poweron : Bool := false
  cpu_on_entry : Nat := 0
  cpu_on_context : Nat := 0
  reset : Bool := false
  park : Bool := false
  suspend_cpu : Bool := false
  cpu_suspended : Bool := false
  virt_id : Nat := 0
  stats_psci : Nat := 0
deriving DecidableEq, Repr

def baseCpu : PerCpu := {}

/-- Point update of the per-CPU table. -/
def updateCpu (st : Nat → PerCpu) (c : Nat) (f : PerCpu → PerCpu) : Nat → PerCpu :=
  fun i => if i = c then f (st i) else st i

/-- Observable cross-CPU actions, in program order: per-CPU lock
operations, the per-CPU state stores done under the lock, SGIs and
self-parking. -/
inductive CtrlEvent where
  | lock (c : Nat)
  | unlock (c : Nat)
  | sgi (targets : Nat) (id : Nat)
  | setEntry (c v : Nat)
  | setContext (c v : Nat)
  | setReset (c : Nat)
  | parkSelf (c : Nat)
deriving DecidableEq, Repr

/-- Modelled from the spec: the event SGI id from the platform
configuration. -/
def SGI_EVENT : Nat := 0

/-- PSCI return codes (asm/psci.h, values fixed by the spec §6). -/
def PSCI_SUCCESS : Int := 0

def PSCI_NOT_SUPPORTED : Int := -1

def PSCI_DENIED : Int := -3

def PSCI_ALREADY_ON : Int := -4

def PSCI_CPU_IS_ON : Int := 0

def PSCI_CPU_IS_OFF : Int := 1

/-- Modelled from the spec: PSCI function identifiers (§6). -/
def PSCI_VERSION : Nat := 0x84000000

def PSCI_CPU_OFF : Nat := 0x84000002

def PSCI_CPU_ON_32 : Nat := 0x84000003

def PSCI_AFFINITY_INFO_32 : Nat := 0x84000004

/-- Modelled from the spec: the vendor-prefixed v0.1 U-Boot function ids
(exact values are irrelevant to the claims; they are distinct from the
v0.2 ids). -/
def PSCI_CPU_OFF_V0_1_UBOOT : Nat := 0x95c1ba5e

def PSCI_CPU_ON_V0_1_UBOOT : Nat := 0x95c1ba5f

/-- Embedding of `arm_cpu_kick` (control.c): send `SGI_EVENT` to the
target CPU. -/
def arm_cpu_kick (cpu : Nat) : CtrlEvent := .sgi (1 <<< cpu) SGI_EVENT

/-- Embedding of `psci_emulate_cpu_on` (psci.c).  `translated` is the
result of `arm_cpu_by_mpidr` on the calling cell (that translation lives
outside these sources; `none` models the `-1` not-in-set answer).  Returns
the PSCI result, the new per-CPU table, and the event trace in program
order. -/
def psci_emulate_cpu_on (translated : Option Nat) (st : Nat → PerCpu)
    (entry context : Nat) : Int × (Nat → PerCpu) × List CtrlEvent :=
  match translated with
  | none => (PSCI_DENIED, st, [])
  | some cpu =>
    if (st cpu).wait_for_poweron then
      (PSCI_SUCCESS,
       updateCpu st cpu (fun t =>
         { t with cpu_on_entry := entry, cpu_on_context := context, reset := true }),
       [.lock cpu, .setEntry cpu entry, .setContext cpu context, .setReset cpu,
        .unlock cpu, arm_cpu_kick cpu])
    else
      (PSCI_ALREADY_ON, st, [.lock cpu, .unlock cpu])

/-- Embedding of `psci_emulate_affinity_info` (psci.c). -/
def psci_emulate_affinity_info (translated : Option Nat) (st : Nat → PerCpu) : Int :=
  match translated with
  | none => PSCI_DENIED
  | some cpu => if (st cpu).wait_for_poweron then PSCI_CPU_IS_OFF else PSCI_CPU_IS_ON

/-- Embedding of `psci_dispatch` (psci.c): bump the PSCI exit
counter, then dispatch on the function id in r0.  `CPU_OFF` parks the
calling CPU (arm_cpu_park in control.c: under the lock of the caller clear
`park` and set `wait_for_poweron`, then reset into the parking map). -/
def psci_dispatch (caller : Nat) (translated : Option Nat) (regs : Nat → Nat)
    (st : Nat → PerCpu) : Int × (Nat → PerCpu) × List CtrlEvent :=
  let fid := regs 0 % 2 ^ 32
  let st1 := updateCpu st caller (fun c => { c with stats_psci := c.stats_psci + 1 })
  if fid = PSCI_VERSION then (2, st1, [])
  else if fid = PSCI_CPU_OFF ∨ fid = PSCI_CPU_OFF_V0_1_UBOOT then
    (0, updateCpu st1 caller (fun c => { c with park := false, wait_for_poweron := true }),
     [.lock caller, .unlock caller, .parkSelf caller])
  else if fid = PSCI_CPU_ON_32 ∨ fid = PSCI_CPU_ON_V0_1_UBOOT then
    psci_emulate_cpu_on translated st1 (regs 2) (regs 3)
  else if fid = PSCI_AFFINITY_INFO_32 then
    (psci_emulate_affinity_info translated st1, st1, [])
  else (PSCI_NOT_SUPPORTED, st1, [])

/-- C3: `psci_emulate_cpu_on` returns DENIED without state change or
events when the mpidr does not translate; returns ALREADY_ON without state
change when the target is not waiting for power-on (only taking and
releasing the lock of the target); else sets entry, context and reset under the
lock of the target and kicks the target with `SGI_EVENT` only after the unlock,
returning SUCCESS. -/
theorem C3_psci_cpu_on (translated : Option Nat) (st : Nat → PerCpu)
    (entry context : Nat) :
    (translated = none →
      psci_emulate_cpu_on translated st entry context = (PSCI_DENIED, st, [])) ∧
    (∀ cpu, translated = some cpu → (st cpu).wait_for_poweron = false →
      psci_emulate_cpu_on translated st entry context =
        (PSCI_ALREADY_ON, st, [.lock cpu, .unlock cpu])) ∧
    (∀ cpu, translated = some cpu → (st cpu).wait_for_poweron = true →
      (psci_emulate_cpu_on translated st entry context).1 = PSCI_SUCCESS ∧
      ((psci_emulate_cpu_on translated st entry context).2.1 cpu).cpu_on_entry = entry ∧
      ((psci_emulate_cpu_on translated st entry context).2.1 cpu).cpu_on_context = context ∧
      ((psci_emulate_cpu_on translated st entry context).2.1 cpu).reset = true ∧
      (∀ c, c ≠ cpu → (psci_emulate_cpu_on translated st entry context).2.1 c = st c) ∧
      (psci_emulate_cpu_on translated st entry context).2.2 =
        [.lock cpu, .setEntry cpu entry, .setContext cpu context, .setReset cpu,
         .unlock cpu, .sgi (1 <<< cpu) SGI_EVENT]) := by
  refine ⟨?_, ?_, ?_⟩
  · intro h
    subst h
    rfl
  · intro cpu h hw
    subst h
    simp [psci_emulate_cpu_on, hw]
  · intro cpu h hw
    subst h
    refine ⟨?_, ?_, ?_, ?_, ?_, ?_⟩ <;>
      simp [psci_emulate_cpu_on, hw, arm_cpu_kick, updateCpu]
    intro c hc
    simp [hc]

/-- C3 witness: target CPU 1 waiting for power-on; a CPU_ON with entry
4096 and context 7 succeeds, writes the target record, and the kick trails
the unlock in the trace. -/
theorem C3_psci_cpu_on_witness :
    (psci_emulate_cpu_on (some 1)
      (fun _ => { baseCpu with wait_for_poweron := true }) 4096 7).1 = PSCI_SUCCESS ∧
    ((psci_emulate_cpu_on (some 1)
      (fun _ => { baseCpu with wait_for_poweron := true }) 4096 7).2.1 1).cpu_on_entry = 4096 ∧
    (psci_emulate_cpu_on (some 1)
      (fun _ => { baseCpu with wait_for_poweron := true }) 4096 7).2.2 =
      [.lock 1, .setEntry 1 4096, .setContext 1 7, .setReset 1, .unlock 1,
       .sgi 2 SGI_EVENT] := by
  have h := (C3_psci_cpu_on (some 1)
    (fun _ => { baseCpu with wait_for_poweron := true }) 4096 7).2.2 1 rfl rfl
  exact ⟨h.1, h.2.1, h.2.2.2.2.2⟩

theorem cpu_on_stats (translated : Option Nat) (st : Nat → PerCpu)
    (entry context x : Nat) :
    ((psci_emulate_cpu_on translated st entry context).2.1 x).stats_psci =
      (st x).stats_psci := by
  cases translated with
  | none => rfl
  | some cpu =>
    by_cases h : (st cpu).wait_for_poweron
    · simp only [psci_emulate_cpu_on, if_pos h, updateCpu]
      by_cases hx : x = cpu <;> simp [hx]
    · simp [psci_emulate_cpu_on, h]

/-- C10: every `psci_dispatch` invocation increments the PSCI exit
counter of the calling CPU by exactly one, for every function id including
unrecognised ones. -/
theorem C10_psci_dispatch_counts (caller : Nat) (translated : Option Nat)
    (regs : Nat → Nat) (st : Nat → PerCpu) :
    ((psci_dispatch caller translated regs st).2.1 caller).stats_psci =
      (st caller).stats_psci + 1 := by
  simp only [psci_dispatch]
  set fid := regs 0 % 2 ^ 32 with hfid
  set st1 := updateCpu st caller (fun c => { c with stats_psci := c.stats_psci + 1 }) with hst1
  have hs : (st1 caller).stats_psci = (st caller).stats_psci + 1 := by
    simp [hst1, updateCpu]
  by_cases h1 : fid = PSCI_VERSION
  · simp only [if_pos h1]
    exact hs
  · by_cases h2 : fid = PSCI_CPU_OFF ∨ fid = PSCI_CPU_OFF_V0_1_UBOOT
    · simp only [if_neg h1, if_pos h2]
      simp only [updateCpu, if_pos rfl]
      exact hs
    · by_cases h3 : fid = PSCI_CPU_ON_32 ∨ fid = PSCI_CPU_ON_V0_1_UBOOT
      · simp only [if_neg h1, if_neg h2, if_pos h3]
        rw [cpu_on_stats]
        exact hs
      · by_cases h4 : fid = PSCI_AFFINITY_INFO_32
        · simp only [if_neg h1, if_neg h2, if_neg h3, if_pos h4]
          exact hs
        · simp only [if_neg h1, if_neg h2, if_neg h3, if_neg h4]
          exact hs

/-- The result of `arch_suspend_cpu`: the per-CPU table after the call,
whether the target was kicked, and whether the caller entered the
busy-wait loop. -/
structure SuspendResult where
  st : Nat → PerCpu
  kicked : Bool
  busy_waited : Bool

/-- Embedding of `arch_suspend_cpu` (control.c): under the lock of the target
set `suspend_cpu` and sample `cpu_suspended`; if the target was not
already suspended, kick it and busy-wait on `cpu_suspended`.  The
busy-wait exit is modelled by its loop condition: at return the target has
set `cpu_suspended` in its event loop (check_events in control.c). -/
def arch_suspend_cpu (cpu : Nat) (st : Nat → PerCpu) : SuspendResult :=
  let target_suspended := (st cpu).cpu_suspended
  let st1 := updateCpu st cpu (fun t => { t with suspend_cpu := true })
  if target_suspended then
    { st := st1, kicked := false, busy_waited := false }
  else
    { st := updateCpu st1 cpu (fun t => { t with cpu_suspended := true }),
      kicked := true, busy_waited := true }

theorem suspend_sets_suspended (cpu : Nat) (st : Nat → PerCpu) :
    ((arch_suspend_cpu cpu st).st cpu).cpu_suspended = true ∧
    ((arch_suspend_cpu cpu st).st cpu).suspend_cpu = true := by
  unfold arch_suspend_cpu
  by_cases h : (st cpu).cpu_suspended <;> simp [h, updateCpu]

theorem setSuspend_id (t : PerCpu) (h : t.suspend_cpu = true) :
    { t with suspend_cpu := true } = t := by
  cases t
  simp only at h
  simp [h]

/-- C9: a second `arch_suspend_cpu` on the same target with no intervening
resume observes `cpu_suspended` already true, sends no kick, never enters
the busy-wait loop, and leaves the state unchanged. -/
theorem C9_suspend_twice (cpu : Nat) (st : Nat → PerCpu) :
    arch_suspend_cpu cpu (arch_suspend_cpu cpu st).st =
      { st := (arch_suspend_cpu cpu st).st, kicked := false, busy_waited := false } := by
  set st1 := (arch_suspend_cpu cpu st).st with hst1
  have hsus : (st1 cpu).cpu_suspended = true := (suspend_sets_suspended cpu st).1
  have hsc : (st1 cpu).suspend_cpu = true := (suspend_sets_suspended cpu st).2
  unfold arch_suspend_cpu
  rw [if_pos hsus]
  have : updateCpu st1 cpu (fun t => { t with suspend_cpu := true }) = st1 := by
    funext i
    unfold updateCpu
    by_cases hi : i = cpu
    · subst hi
      rw [if_pos rfl]
      exact setSuspend_id _ hsc
    · rw [if_neg hi]
  rw [this]

/-- GICH list-register field constants (asm/gic.h, modelled from the
spec: virtual id, pending state bit, hardware bit, physical-id field). -/
def GICH_LR_VIRT_ID_MASK : Nat := 0x3ff

def GICH_LR_PENDING_BIT : Nat := 1 <<< 28

def GICH_LR_HW_BIT : Nat := 1 <<< 31

def GICH_LR_PHYS_ID_SHIFT : Nat := 10

/-- SGIs are the sixteen lowest interrupt ids (gic_common.h). -/
def is_sgi (irqn : Nat) : Bool := irqn < 16

/-- The per-CPU list-register window: capacity, the hardware empty-status
bit per slot (ELSR, true = slot empty) and the value of each slot. -/
structure GicState where
  num_lr : Nat
  elsr : Nat → Bool
  lr : Nat → Nat

/-- Modelled from the spec: writing a list register updates the slot and
its hardware empty-status; the slot counts as empty only when the written
state bits (29:28) are zero. -/
def gic_write_lr (st : GicState) (n v : Nat) : GicState :=
  { st with
    lr := fun i => if i = n then v else st.lr i,
    elsr := fun i => if i = n then ((v >>> 28) &&& 0x3) == 0 else st.elsr i }

/-- The list-register walk of `gic_inject_irq` (gic-v2.c): skip empty
slots remembering the first one, fail on a slot already holding the
requested virtual id.  `none` is the EEXIST outcome; `some ff` completes
the walk with the remembered first free slot. -/
def gic_inject_scan (st : GicState) (irq_id : Nat) :
    List Nat → Option Nat → Option (Option Nat)
  | [], first_free => some first_free
  | i :: rest, first_free =>
    if st.elsr i then
      gic_inject_scan st irq_id rest (if first_free = none then some i else first_free)
    else if st.lr i &&& GICH_LR_VIRT_ID_MASK = irq_id then
      none
    else
      gic_inject_scan st irq_id rest first_free

/-- Embedding of `gic_inject_irq` (gic-v2.c).  Error codes are the Linux
errno values used by the source: -EEXIST = -17, -EBUSY = -16. -/
def gic_inject_irq (st : GicState) (irq_id : Nat) : Int × GicState :=
  match gic_inject_scan st irq_id (List.range st.num_lr) none with
  | none => (-17, st)
  | some none => (-16, st)
  | some (some first_free) =>
    let lrv := (irq_id ||| GICH_LR_PENDING_BIT) |||
      (if is_sgi irq_id then 0
       else GICH_LR_HW_BIT ||| (irq_id <<< GICH_LR_PHYS_ID_SHIFT))
    (0, gic_write_lr st first_free lrv)

theorem gic_scan_none_iff (st : GicState) (irq_id : Nat) :
    ∀ (l : List Nat) (acc : Option Nat),
      gic_inject_scan st irq_id l acc = none ↔
        ∃ i ∈ l, st.elsr i = false ∧ st.lr i &&& GICH_LR_VIRT_ID_MASK = irq_id := by
  intro l
  induction l with
  | nil =>
    intro acc
    simp [gic_inject_scan]
  | cons i rest ih =>
    intro acc
    by_cases he : st.elsr i = true
    · rw [show gic_inject_scan st irq_id (i :: rest) acc =
        gic_inject_scan st irq_id rest (if acc = none then some i else acc) by
          simp [gic_inject_scan, he]]
      rw [ih]
      constructor
      · rintro ⟨j, hj, hp⟩
        exact ⟨j, List.mem_cons_of_mem i hj, hp⟩
      · rintro ⟨j, hj, hp⟩
        rcases List.mem_cons.mp hj with rfl | hj1
        · rw [hp.1] at he
          exact absurd he (by decide)
        · exact ⟨j, hj1, hp⟩
    · have he' : st.elsr i = false := by simpa using he
      by_cases hm : st.lr i &&& GICH_LR_VIRT_ID_MASK = irq_id
      · rw [show gic_inject_scan st irq_id (i :: rest) acc = none by
          simp [gic_inject_scan, he', hm]]
        constructor
        · intro _
          exact ⟨i, List.mem_cons_self i rest, he', hm⟩
        · intro _
          rfl
      · rw [show gic_inject_scan st irq_id (i :: rest) acc =
          gic_inject_scan st irq_id rest acc by
            simp [gic_inject_scan, he', hm]]
        rw [ih]
        constructor
        · rintro ⟨j, hj, hp⟩
          exact ⟨j, List.mem_cons_of_mem i hj, hp⟩
        · rintro ⟨j, hj, hp⟩
          rcases List.mem_cons.mp hj with rfl | hj1
          · exact absurd hp.2 hm
          · exact ⟨j, hj1, hp⟩

theorem gic_scan_some_acc (st : GicState) (irq_id : Nat) :
    ∀ (l : List Nat) (a : Nat),
      (¬ ∃ i ∈ l, st.elsr i = false ∧ st.lr i &&& GICH_LR_VIRT_ID_MASK = irq_id) →
      gic_inject_scan st irq_id l (some a) = some (some a) := by
  intro l
  induction l with
  | nil =>
    intro a _
    rfl
  | cons i rest ih =>
    intro a hno
    have hno' : ¬ ∃ j ∈ rest, st.elsr j = false ∧
        st.lr j &&& GICH_LR_VIRT_ID_MASK = irq_id := by
      intro ⟨j, hj, hp⟩
      exact hno ⟨j, List.mem_cons_of_mem i hj, hp⟩
    by_cases he : st.elsr i = true
    · rw [show gic_inject_scan st irq_id (i :: rest) (some a) =
        gic_inject_scan st irq_id rest (some a) by
          simp [gic_inject_scan, he]]
      exact ih a hno'
    · have he' : st.elsr i = false := by simpa using he
      have hm : ¬ st.lr i &&& GICH_LR_VIRT_ID_MASK = irq_id := by
        intro hm
        exact hno ⟨i, List.mem_cons_self i rest, he', hm⟩
      rw [show gic_inject_scan st irq_id (i :: rest) (some a) =
        gic_inject_scan st irq_id rest (some a) by
          simp [gic_inject_scan, he', hm]]
      exact ih a hno'

theorem gic_scan_first_free (st : GicState) (irq_id : Nat) :
    ∀ l : List Nat,
      (¬ ∃ i ∈ l, st.elsr i = false ∧ st.lr i &&& GICH_LR_VIRT_ID_MASK = irq_id) →
      gic_inject_scan st irq_id l none = some (l.find? st.elsr) := by
  intro l
  induction l with
  | nil =>
    intro _
    rfl
  | cons i rest ih =>
    intro hno
    have hno' : ¬ ∃ j ∈ rest, st.elsr j = false ∧
        st.lr j &&& GICH_LR_VIRT_ID_MASK = irq_id := by
      intro ⟨j, hj, hp⟩
      exact hno ⟨j, List.mem_cons_of_mem i hj, hp⟩
    by_cases he : st.elsr i = true
    · rw [show gic_inject_scan st irq_id (i :: rest) none =
        gic_inject_scan st irq_id rest (some i) by
          simp [gic_inject_scan, he]]
      rw [gic_scan_some_acc st irq_id rest i hno', List.find?_cons_of_pos _ he]
    · have he' : st.elsr i = false := by simpa using he
      have hm : ¬ st.lr i &&& GICH_LR_VIRT_ID_MASK = irq_id := by
        intro hm
        exact hno ⟨i, List.mem_cons_self i rest, he', hm⟩
      rw [show gic_inject_scan st irq_id (i :: rest) none =
        gic_inject_scan st irq_id rest none by
          simp [gic_inject_scan, he', hm]]
      rw [ih hno', List.find?_cons_of_neg _ he]

/-- C4: `gic_inject_irq` returns -EEXIST when an occupied list register
already holds the requested virtual id, -EBUSY when none of the
`num_lr` slots is empty, and otherwise writes the first empty slot with
the virtual id and the pending bit, adding the hardware bit and a copy of
the physical id exactly when the id is not an SGI; with `num_lr = 1` a
first injection succeeds, a second with a different id returns -EBUSY and
a second with the same id returns -EEXIST. -/
theorem C4_gic_inject_irq (st : GicState) (irq_id : Nat) :
    ((∃ i, i < st.num_lr ∧ st.elsr i = false ∧
        st.lr i &&& GICH_LR_VIRT_ID_MASK = irq_id) →
      gic_inject_irq st irq_id = (-17, st)) ∧
    ((¬ ∃ i, i < st.num_lr ∧ st.elsr i = false ∧
        st.lr i &&& GICH_LR_VIRT_ID_MASK = irq_id) →
      (∀ i, i < st.num_lr → st.elsr i = false) →
      gic_inject_irq st irq_id = (-16, st)) ∧
    (∀ ff, (¬ ∃ i, i < st.num_lr ∧ st.elsr i = false ∧
        st.lr i &&& GICH_LR_VIRT_ID_MASK = irq_id) →
      (List.range st.num_lr).find? st.elsr = some ff →
      gic_inject_irq st irq_id =
        (0, gic_write_lr st ff ((irq_id ||| GICH_LR_PENDING_BIT) |||
          (if is_sgi irq_id then 0
           else GICH_LR_HW_BIT ||| (irq_id <<< GICH_LR_PHYS_ID_SHIFT))))) ∧
    ((gic_inject_irq ⟨1, fun _ => true, fun _ => 0⟩ 100).1 = 0 ∧
     (gic_inject_irq (gic_inject_irq ⟨1, fun _ => true, fun _ => 0⟩ 100).2 101).1 = -16 ∧
     (gic_inject_irq (gic_inject_irq ⟨1, fun _ => true, fun _ => 0⟩ 100).2 100).1 = -17) := by
  refine ⟨?_, ?_, ?_, by decide⟩
  · rintro ⟨i, hi, hp⟩
    unfold gic_inject_irq
    rw [show gic_inject_scan st irq_id (List.range st.num_lr) none = none from
      (gic_scan_none_iff st irq_id _ none).mpr ⟨i, List.mem_range.mpr hi, hp⟩]
  · intro hno hall
    have hno' : ¬ ∃ i ∈ List.range st.num_lr, st.elsr i = false ∧
        st.lr i &&& GICH_LR_VIRT_ID_MASK = irq_id := by
      rintro ⟨i, hi, hp⟩
      exact hno ⟨i, List.mem_range.mp hi, hp⟩
    have hnone : (List.range st.num_lr).find? st.elsr = none := by
      rw [List.find?_eq_none]
      intro x hx
      simp [hall x (List.mem_range.mp hx)]
    unfold gic_inject_irq
    rw [gic_scan_first_free st irq_id _ hno', hnone]
  · intro ff hno hfind
    have hno' : ¬ ∃ i ∈ List.range st.num_lr, st.elsr i = false ∧
        st.lr i &&& GICH_LR_VIRT_ID_MASK = irq_id := by
      rintro ⟨i, hi, hp⟩
      exact hno ⟨i, List.mem_range.mp hi, hp⟩
    unfold gic_inject_irq
    rw [gic_scan_first_free st irq_id _ hno', hfind]

/-- C4 witness: two empty list registers, inject hardware interrupt 40:
slot 0 is written with id, pending, hardware bit and physical id copy. -/
theorem C4_gic_inject_irq_witness :
    gic_inject_irq ⟨2, fun _ => true, fun _ => 0⟩ 40 =
      ((0 : Int), gic_write_lr ⟨2, fun _ => true, fun _ => 0⟩ 0
        ((40 ||| GICH_LR_PENDING_BIT) |||
          (if is_sgi 40 then 0
           else GICH_LR_HW_BIT ||| (40 <<< GICH_LR_PHYS_ID_SHIFT)))) := by
  refine (C4_gic_inject_irq ⟨2, fun _ => true, fun _ => 0⟩ 40).2.2.1 0 ?_ rfl
  rintro ⟨i, hi, hp, hq⟩
  simp at hp

/-- Modelled from the spec: `PSCI_INVALID_ADDRESS`, the sentinel meaning
not yet powered on. -/
def PSCI_INVALID_ADDRESS : Nat := 0xffffffff

/-- The per-cell architecture state touched by `arch_cell_create`
(control.c): the highest virtual CPU id and whether the cell stage-2
paging is currently set up. -/
structure ArmCell where
  last_virt_id : Nat
  paging_valid : Bool
deriving DecidableEq, Repr

/-- The virtual-id assignment loop of `arch_cell_create` (control.c):
walk the cell CPU set (the list is its ascending enumeration, as
`for_each_cpu` produces) assigning `virt_id = 0, 1, 2, ...` and
`cpu_on_entry = 0` for the first CPU, `PSCI_INVALID_ADDRESS` for the
rest.  Returns the updated table and the final counter value. -/
def assign_virt_ids : List Nat → Nat → (Nat → PerCpu) → ((Nat → PerCpu) × Nat)
  | [], virt, st => (st, virt)
  | c :: rest, virt, st =>
    assign_virt_ids rest (virt + 1)
      (updateCpu st c (fun p =>
        { p with
          cpu_on_entry := if virt = 0 then 0 else PSCI_INVALID_ADDRESS,
          virt_id := virt }))

/-- Embedding of `arch_cell_create` (control.c).  The paging and irqchip
collaborators live outside these sources; their outcomes are parameters
(`none` = success, `some e` = error).  `last_virt_id` is set to the
unsigned 32-bit value of `virt_id - 1`; on irqchip failure the cell
paging is destroyed again and the error returned. -/
def arch_cell_create (paging_init_err irqchip_init_err : Option Int)
    (cpus : List Nat) (cell : ArmCell) (st : Nat → PerCpu) :
    Int × ArmCell × (Nat → PerCpu) :=
  match paging_init_err with
  | some e => (e, cell, st)
  | none =>
    let r := assign_virt_ids cpus 0 st
    let cell1 : ArmCell :=
      { last_virt_id := (r.2 + 2 ^ 32 - 1) % 2 ^ 32, paging_valid := true }
    match irqchip_init_err with
    | some e => (e, { cell1 with paging_valid := false }, r.1)
    | none => (0, cell1, r.1)

theorem assign_virt_ids_count (cpus : List Nat) :
    ∀ (virt : Nat) (st : Nat → PerCpu),
      (assign_virt_ids cpus virt st).2 = virt + cpus.length := by
  induction cpus with
  | nil =>
    intro virt st
    simp [assign_virt_ids]
  | cons c rest ih =>
    intro virt st
    rw [show assign_virt_ids (c :: rest) virt st =
      assign_virt_ids rest (virt + 1) (updateCpu st c (fun p =>
        { p with
          cpu_on_entry := if virt = 0 then 0 else PSCI_INVALID_ADDRESS,
          virt_id := virt })) from rfl]
    rw [ih]
    simp
    omega

theorem assign_virt_ids_not_mem (cpus : List Nat) :
    ∀ (virt : Nat) (st : Nat → PerCpu) (c : Nat), c ∉ cpus →
      (assign_virt_ids cpus virt st).1 c = st c := by
  induction cpus with
  | nil =>
    intro virt st c _
    rfl
  | cons d rest ih =>
    intro virt st c hc
    have hd : c ≠ d := fun h => hc (h ▸ List.mem_cons_self d rest)
    have hr : c ∉ rest := fun h => hc (List.mem_cons_of_mem d h)
    rw [show assign_virt_ids (d :: rest) virt st =
      assign_virt_ids rest (virt + 1) (updateCpu st d (fun p =>
        { p with
          cpu_on_entry := if virt = 0 then 0 else PSCI_INVALID_ADDRESS,
          virt_id := virt })) from rfl]
    rw [ih _ _ _ hr]
    simp [updateCpu, hd]

theorem assign_virt_ids_get (cpus : List Nat) :
    ∀ (virt : Nat) (st : Nat → PerCpu), cpus.Nodup →
      ∀ (i : Nat) (h : i < cpus.length),
        (assign_virt_ids cpus virt st).1 (cpus.get ⟨i, h⟩) =
          { st (cpus.get ⟨i, h⟩) with
            cpu_on_entry := if virt + i = 0 then 0 else PSCI_INVALID_ADDRESS,
            virt_id := virt + i } := by
  induction cpus with
  | nil =>
    intro virt st _ i h
    exact absurd h (by simp)
  | cons c rest ih =>
    intro virt st hnd i h
    have hc : c ∉ rest := (List.nodup_cons.mp hnd).1
    have hr : rest.Nodup := (List.nodup_cons.mp hnd).2
    rw [show assign_virt_ids (c :: rest) virt st =
      assign_virt_ids rest (virt + 1) (updateCpu st c (fun p =>
        { p with
          cpu_on_entry := if virt = 0 then 0 else PSCI_INVALID_ADDRESS,
          virt_id := virt })) from rfl]
    cases i with
    | zero =>
      have hget : (c :: rest).get ⟨0, h⟩ = c := rfl
      rw [hget, assign_virt_ids_not_mem rest _ _ c hc]
      simp [updateCpu]
    | succ j =>
      have hj : j < rest.length := Nat.succ_lt_succ_iff.mp (by simpa using h)
      have hget : (c :: rest).get ⟨j + 1, h⟩ = rest.get ⟨j, hj⟩ := rfl
      rw [hget, ih (virt + 1) _ hr j hj]
      have hne : rest.get ⟨j, hj⟩ ≠ c := by
        intro hcon
        exact hc (hcon ▸ rest.get_mem j hj)
      have harith : virt + 1 + j = virt + (j + 1) := by omega
      have hif : virt + (j + 1) ≠ 0 := by omega
      have hif1 : virt + 1 + j ≠ 0 := by omega
      simp only [List.get_eq_getElem] at hne ⊢
      simp [updateCpu, hne, harith, hif, hif1]

/-- C8: after a successful `arch_cell_create` the CPUs of the cell, in
ascending physical order, carry `virt_id = 0, 1, ..., N-1`;
`last_virt_id = N - 1`; `cpu_on_entry` is 0 for virt_id 0 and
`PSCI_INVALID_ADDRESS` for the rest; when irqchip initialisation fails the
cell paging is destroyed again and the error is propagated. -/
theorem C8_cell_create (cpus : List Nat) (cell : ArmCell) (st : Nat → PerCpu)
    (hnd : cpus.Nodup) (hpos : 0 < cpus.length) (hlen : cpus.length < 2 ^ 32) :
    ((arch_cell_create none none cpus cell st).1 = 0 ∧
     (arch_cell_create none none cpus cell st).2.1.paging_valid = true ∧
     (arch_cell_create none none cpus cell st).2.1.last_virt_id = cpus.length - 1 ∧
     (∀ (i : Nat) (h : i < cpus.length),
       ((arch_cell_create none none cpus cell st).2.2 (cpus.get ⟨i, h⟩)).virt_id = i ∧
       ((arch_cell_create none none cpus cell st).2.2 (cpus.get ⟨i, h⟩)).cpu_on_entry =
         if i = 0 then 0 else PSCI_INVALID_ADDRESS)) ∧
    (∀ e : Int,
      (arch_cell_create none (some e) cpus cell st).1 = e ∧
      (arch_cell_create none (some e) cpus cell st).2.1.paging_valid = false ∧
      (∀ (i : Nat) (h : i < cpus.length),
        ((arch_cell_create none (some e) cpus cell st).2.2 (cpus.get ⟨i, h⟩)).virt_id = i)) := by
  constructor
  · refine ⟨rfl, rfl, ?_, ?_⟩
    · show ((assign_virt_ids cpus 0 st).2 + 2 ^ 32 - 1) % 2 ^ 32 = cpus.length - 1
      rw [assign_virt_ids_count]
      omega
    · intro i h
      have hg := assign_virt_ids_get cpus 0 st hnd i h
      constructor
      · show ((assign_virt_ids cpus 0 st).1 (cpus.get ⟨i, h⟩)).virt_id = i
        rw [hg]
        simp
      · show ((assign_virt_ids cpus 0 st).1 (cpus.get ⟨i, h⟩)).cpu_on_entry =
          if i = 0 then 0 else PSCI_INVALID_ADDRESS
        rw [hg]
        simp
  · intro e
    refine ⟨rfl, rfl, ?_⟩
    intro i h
    have hg := assign_virt_ids_get cpus 0 st hnd i h
    show ((assign_virt_ids cpus 0 st).1 (cpus.get ⟨i, h⟩)).virt_id = i
    rw [hg]
    simp

/-- C8 witness: a cell with CPUs 3 and 5: CPU 3 gets virt_id 0 and entry
0, CPU 5 gets virt_id 1 and the invalid-address sentinel. -/
theorem C8_cell_create_witness :
    ((arch_cell_create none none [3, 5] ⟨0, false⟩ (fun _ => baseCpu)).2.2 3).virt_id = 0 ∧
    ((arch_cell_create none none [3, 5] ⟨0, false⟩ (fun _ => baseCpu)).2.2 5).virt_id = 1 ∧
    ((arch_cell_create none none [3, 5] ⟨0, false⟩ (fun _ => baseCpu)).2.2 5).cpu_on_entry =
      PSCI_INVALID_ADDRESS ∧
    (arch_cell_create none none [3, 5] ⟨0, false⟩ (fun _ => baseCpu)).2.1.last_virt_id = 1 := by
  have h := C8_cell_create [3, 5] ⟨0, false⟩ (fun _ => baseCpu)
    (by decide) (by decide) (by norm_num)
  have h0 := (h.1.2.2.2 0 (by norm_num)).1
  have h1 := (h.1.2.2.2 1 (by norm_num)).1
  have h2 := (h.1.2.2.2 1 (by norm_num)).2
  exact ⟨h0, h1, by simpa using h2, h.1.2.2.1⟩
